import Mathlib

/-!
Verification of the post-ranking subsystem of the taiwan-news-ai-search
repository: the results cache (core/results_cache.py), the MMR diversity
re-ranker (core/mmr.py), the XGBoost shadow ranker (core/xgboost_ranker.py)
and the feature-engineering helpers (training/feature_engineering.py).

The Python code is shallowly embedded: Python floats become rationals,
Python lists become Lean lists, Python dicts keyed by strings become
association lists, and code that can raise returns an value in the
Except monad.  The ambient clock (time.time, datetime.now) and the
file system (os.path.exists) are passed in explicitly; the ISO-8601
date parser of the standard library (datetime.fromisoformat composed
with the Z-replacement) is abstracted as a function from strings to an
optional day number.
-/

/-- Python exception kinds relevant to the embedded code. -/
inductive PyExc where
  | assertionError
  | valueError
  | zeroDivisionError
deriving DecidableEq, Repr

/-- Python float division: raises ZeroDivisionError on a zero denominator. -/
def pydiv (a b : ℚ) : Except PyExc ℚ :=
  if b = 0 then .error .zeroDivisionError else .ok (a / b)

/-- Python str.split() / whitespace tokenization: split on whitespace runs,
dropping empty pieces. -/
def pyWords (s : String) : List String :=
  (s.split Char.isWhitespace).filter (fun w => w ≠ "")

/-- Python substring membership test, lowered from the source's uses of
the form needle in haystack.  An empty needle is a member of any string. -/
def pyInStr (needle haystack : String) : Bool :=
  if needle = "" then true else (haystack.splitOn needle).length ≠ 1

/-- Truthiness of an optional Python string: None and the empty string are
falsy, every other string is truthy. -/
def pyTruthy : Option String → Bool
  | none => false
  | some s => s ≠ ""

/-- Python max over a possibly empty list, with the default the source
supplies for the empty case. -/
def pyListMax (l : List ℚ) (dflt : ℚ) : ℚ :=
  match l with
  | [] => dflt
  | h :: t => t.foldl max h

/-- Python min over a possibly empty list, with the default the source
supplies for the empty case. -/
def pyListMin (l : List ℚ) (dflt : ℚ) : ℚ :=
  match l with
  | [] => dflt
  | h :: t => t.foldl min h

/-- numpy.mean; a mean of an empty array is NaN in numpy, modelled here as
0 (the branches the theorems below inspect never read the mean of an empty
array). -/
def pymean (l : List ℚ) : ℚ := l.sum / l.length

/-- First-match lookup in a string-keyed association list (Python dict read). -/
def dictFind {α : Type} : List (String × α) → String → Option α
  | [], _ => none
  | (k, v) :: rest, key => if k = key then some v else dictFind rest key

/-- Python dict assignment: replace the value at an existing key in place,
otherwise append the binding. -/
def dictSet {α : Type} : List (String × α) → String → α → List (String × α)
  | [], k, v => [(k, v)]
  | (k', v') :: rest, k, v =>
    if k' = k then (k, v) :: rest else (k', v') :: dictSet rest k v

/-- Python del of a dict key: remove every binding for the key. -/
def dictErase {α : Type} : List (String × α) → String → List (String × α)
  | [], _ => []
  | (k', v') :: rest, k =>
    if k' = k then dictErase rest k else (k', v') :: dictErase rest k

theorem dictFind_dictErase {α : Type} (l : List (String × α)) (k : String) :
    dictFind (dictErase l k) k = none := by
  induction l with
  | nil => rfl
  | cons p rest ih =>
    obtain ⟨k', v'⟩ := p
    by_cases h : k' = k
    · simpa [dictErase, h] using ih
    · simp [dictErase, dictFind, h, ih]

theorem dictFind_mem {α : Type} {l : List (String × α)} {k : String} {v : α}
    (h : dictFind l k = some v) : (k, v) ∈ l := by
  induction l with
  | nil => simp [dictFind] at h
  | cons p rest ih =>
    obtain ⟨k', v'⟩ := p
    by_cases hk : k' = k
    · subst hk
      simp [dictFind] at h
      subst h
      exact List.mem_cons_self _ _
    · simp [dictFind, hk] at h
      exact List.mem_cons_of_mem _ (ih h)

/-! ## ResultsCache (core/results_cache.py)

One cache entry is the dict the source stores under a conversation id:
the ranked answers, the originating query and the store timestamp. -/

/-- One value of the ResultsCache internal dict. -/
structure CacheEntry (α : Type) where
  final_ranked_answers : List α
  query : String
  timestamp : ℚ
deriving DecidableEq

/-- ResultsCache state: the conversation-id-keyed dict plus the configured
TTL.  The lock only serializes access and is not modelled. -/
structure ResultsCache (α : Type) where
  cache : List (String × CacheEntry α)
  ttl_seconds : ℚ
deriving DecidableEq

namespace ResultsCache

/-- ResultsCache._cleanup_expired: drop every entry whose age exceeds the
TTL, keeping the order of the remaining entries. -/
def cleanupExpired {α : Type} (c : ResultsCache α) (now : ℚ) : ResultsCache α :=
  { c with cache := c.cache.filter (fun p => !decide (now - p.2.timestamp > c.ttl_seconds)) }

/-- ResultsCache.store: overwrite the entry for the conversation, stamping
the current time, then opportunistically sweep expired entries. -/
def store {α : Type} (c : ResultsCache α) (now : ℚ) (conversation_id : String)
    (results : List α) (query : String) : ResultsCache α :=
  cleanupExpired
    { c with cache := dictSet c.cache conversation_id ⟨results, query, now⟩ } now

/-- ResultsCache.retrieve: return the stored list when the entry exists and
its age is within the TTL; delete the entry and return none when the age
exceeds the TTL.  Returns the possibly updated cache alongside the result. -/
def retrieve {α : Type} (c : ResultsCache α) (now : ℚ) (conversation_id : String) :
    Option (List α) × ResultsCache α :=
  match dictFind c.cache conversation_id with
  | none => (none, c)
  | some entry =>
    if now - entry.timestamp > c.ttl_seconds then
      (none, { c with cache := dictErase c.cache conversation_id })
    else
      (some entry.final_ranked_answers, c)

end ResultsCache

/-- C8: for every conversation id stored in the cache, retrieve returns the
stored document list exactly when the elapsed time since the store is at
most ttl_seconds; past the TTL it deletes the entry and returns none. -/
theorem resultsCache_ttl {α : Type} (c : ResultsCache α) (conversation_id : String)
    (e : CacheEntry α) (now : ℚ)
    (hstored : dictFind c.cache conversation_id = some e) :
    ((c.retrieve now conversation_id).1 = some e.final_ranked_answers ↔
      now - e.timestamp ≤ c.ttl_seconds) ∧
    (c.ttl_seconds < now - e.timestamp →
      (c.retrieve now conversation_id).1 = none ∧
      dictFind (c.retrieve now conversation_id).2.cache conversation_id = none) := by
  unfold ResultsCache.retrieve
  rw [hstored]
  by_cases h : now - e.timestamp > c.ttl_seconds
  · simp only [if_pos h]
    refine ⟨⟨fun hx => by simp at hx, fun hle => absurd h (not_lt.mpr hle)⟩, fun _ => ?_⟩
    simp [dictFind_dictErase]
  · simp only [if_neg h]
    refine ⟨?_, fun hlt => absurd hlt h⟩
    simpa using not_lt.mp h

/-- C8 witness: a concrete one-entry cache with TTL 300; an entry stored at
time 10 is retrievable at time 100. -/
theorem resultsCache_ttl_witness :
    dictFind (ResultsCache.cache (α := ℕ) ⟨[("conv1", ⟨[7, 8], "q", 10⟩)], 300⟩) "conv1" =
      some ⟨[7, 8], "q", 10⟩ ∧
    ((ResultsCache.retrieve (α := ℕ) ⟨[("conv1", ⟨[7, 8], "q", 10⟩)], 300⟩ 100 "conv1").1 =
        some [7, 8] ↔ (100 : ℚ) - 10 ≤ 300) := by
  refine ⟨rfl, ?_⟩
  have h := resultsCache_ttl (α := ℕ) ⟨[("conv1", ⟨[7, 8], "q", 10⟩)], 300⟩ "conv1"
    ⟨[7, 8], "q", 10⟩ 100 rfl
  exact h.1

/-! ## MMR diversity re-ranker (core/mmr.py)

One document as seen by MMRReranker.rerank: a dict carrying a name, a url,
a nested ranking score and an optional embedding vector.  The ranking
score models r['ranking'].get('score', 0); a document whose dict lacks the
'vector' key or maps it to None has vector = none. -/

/-- A ranked document entering MMR. -/
structure MDoc where
  name : String
  url : String
  score : ℚ
  vector : Option (List ℚ)
deriving DecidableEq, Inhabited

/-- The candidates of MMRReranker.rerank: the input documents that carry a
non-null embedding vector. -/
def mmrCandidates (ranked : List MDoc) : List MDoc :=
  ranked.filter (fun r => r.vector.isSome)

/-- The SPECIFIC-intent indicator substrings of
MMRReranker._detect_intent_and_adjust_lambda. -/
def specificIndicators : List String :=
  ["how to", "如何", "怎麼", "怎么",
   "what is", "什麼是", "什么是",
   "where", "哪裡", "哪里",
   "when", "什麼時候", "什么时候"]

/-- The EXPLORATORY-intent indicator substrings of
MMRReranker._detect_intent_and_adjust_lambda. -/
def exploratoryIndicators : List String :=
  ["best", "最好", "推薦", "推荐",
   "ideas", "點子", "想法",
   "options", "選項", "选项",
   "alternatives", "替代", "其他",
   "trends", "趨勢", "趋势",
   "popular", "熱門", "热门",
   "methods", "ways", "方法", "方式"]

/-- MMRReranker._detect_intent_and_adjust_lambda: count indicator
substrings of each kind in the lowercased query; more specific cues force
lambda to 0.8, more exploratory cues force it to 0.5, otherwise the
configured lambda is kept.  Returns the adjusted lambda and the detected
intent label. -/
def detectIntentLambda (lambda_param : ℚ) (query : String) : ℚ × String :=
  if query = "" then (lambda_param, "BALANCED")
  else
    let ql := query.toLower
    let specific_score := (specificIndicators.filter (fun ind => pyInStr ind ql)).length
    let exploratory_score := (exploratoryIndicators.filter (fun ind => pyInStr ind ql)).length
    if exploratory_score < specific_score then (4/5, "SPECIFIC")
    else if specific_score < exploratory_score then (1/2, "EXPLORATORY")
    else (lambda_param, "BALANCED")

/-- The MMR value of one unselected candidate: lambda times its min-max
normalized relevance minus (1 - lambda) times its maximal similarity to
the already selected documents (a fold of max starting at 0, as in the
source).  The cosine similarity computation is abstracted as the function
argument sim; every claim proved below holds for each such function. -/
def mmrScore (lam : ℚ) (sim : List ℚ → List ℚ → ℚ) (minS range : ℚ)
    (selected : List MDoc) (c : MDoc) : ℚ :=
  let relevance := (c.score - minS) / range
  let maxSimilarity :=
    selected.foldl (fun acc s => max acc (sim (c.vector.getD []) (s.vector.getD []))) 0
  lam * relevance - (1 - lam) * maxSimilarity

/-- The inner loop of one greedy MMR round: walk the candidate list with
its running index, skip the already selected indices, and keep the
strictly best MMR score seen so far (the source starts from negative
infinity and updates on strict improvement, so the first index attaining
the maximum wins; the running Option is none while no unselected
candidate has been scored). -/
def bestFold (lam : ℚ) (sim : List ℚ → List ℚ → ℚ) (minS range : ℚ)
    (selected : List MDoc) (selIdx : List ℕ) :
    ℕ → List MDoc → Option (ℚ × ℕ) → Option (ℚ × ℕ)
  | _, [], best => best
  | idx, c :: cs, best =>
    bestFold lam sim minS range selected selIdx (idx + 1) cs
      (if selIdx.contains idx then best
       else
         let m := mmrScore lam sim minS range selected c
         match best with
         | none => some (m, idx)
         | some (b, bi) => if b < m then some (m, idx) else some (b, bi))

/-- One greedy MMR round over all candidates. -/
def bestCandidate (lam : ℚ) (sim : List ℚ → List ℚ → ℚ) (minS range : ℚ)
    (cands : List MDoc) (selected : List MDoc) (selIdx : List ℕ) : Option (ℚ × ℕ) :=
  bestFold lam sim minS range selected selIdx 0 cands none

/-- The iterative selection loop of MMRReranker.rerank: the first argument
is the number of remaining iterations (the source iterates for
range(1, min(top_k, len(candidates)))).  When a round finds no candidate
the state can no longer change, so the loop returns it unchanged. -/
def mmrLoop (lam : ℚ) (sim : List ℚ → List ℚ → ℚ) (minS range : ℚ) (cands : List MDoc) :
    ℕ → List MDoc × List ℕ × List ℚ → List MDoc × List ℕ × List ℚ
  | 0, st => st
  | k + 1, (sel, selIdx, ms) =>
    match bestCandidate lam sim minS range cands sel selIdx with
    | none => (sel, selIdx, ms)
    | some (b, bi) =>
      mmrLoop lam sim minS range cands k
        (sel ++ [cands.getD bi default], selIdx ++ [bi], ms ++ [b])

/-- MMRReranker.rerank.  The two early returns of the source (no embedded
candidate at all, and at most three embedded candidates) produce the same
value and are merged into one branch.  The diversity diagnostics the
source logs afterwards do not change the returned value and are omitted.
lam is the lambda the constructor computed via detectIntentLambda. -/
def MMRrerank (lam : ℚ) (sim : List ℚ → List ℚ → ℚ)
    (ranked_results : List MDoc) (top_k : ℕ) : List MDoc × List ℚ :=
  if ranked_results = [] then ([], [])
  else
    let candidates := mmrCandidates ranked_results
    if candidates.length ≤ 3 then
      (ranked_results.take top_k, List.replicate (min top_k ranked_results.length) 0)
    else
      let scores := candidates.map (fun r => r.score)
      let max_score := pyListMax scores 1
      let min_score := pyListMin scores 0
      let score_range := if max_score ≠ min_score then max_score - min_score else 1
      let first := candidates.headD default
      let sel0 := [first]
      let idx0 : List ℕ := [0]
      let ms0 := [(first.score - min_score) / score_range]
      let iters := min top_k candidates.length - 1
      let st := mmrLoop lam sim min_score score_range candidates iters (sel0, idx0, ms0)
      let selected := st.1
      let mmr_scores := st.2.2
      let non_vector := ranked_results.filter (fun r => !r.vector.isSome)
      if selected.length < top_k ∧ non_vector ≠ [] then
        (selected ++ non_vector.take (top_k - selected.length),
         mmr_scores ++ List.replicate (min (top_k - selected.length) non_vector.length) 0)
      else
        (selected, mmr_scores)

/-- C6: with at most three embedded candidates, MMR is skipped: the output
is the first top_k input documents unchanged, with an all-zero score list
of the same length. -/
theorem mmr_skip_rule (lam : ℚ) (sim : List ℚ → List ℚ → ℚ)
    (ranked_results : List MDoc) (top_k : ℕ)
    (h : (mmrCandidates ranked_results).length ≤ 3) :
    MMRrerank lam sim ranked_results top_k =
      (ranked_results.take top_k, List.replicate (min top_k ranked_results.length) 0) := by
  unfold MMRrerank
  by_cases he : ranked_results = []
  · subst he
    simp
  · simp only [if_neg he, if_pos h]

/-- C6 witness: three embedded candidates among four documents, top_k = 2. -/
theorem mmr_skip_rule_witness :
    (mmrCandidates
        [⟨"a", "ua", 5, some [1]⟩, ⟨"b", "ub", 4, none⟩,
         ⟨"c", "uc", 3, some [2]⟩, ⟨"d", "ud", 2, some [3]⟩]).length ≤ 3 ∧
    MMRrerank (7/10) (fun _ _ => 0)
        [⟨"a", "ua", 5, some [1]⟩, ⟨"b", "ub", 4, none⟩,
         ⟨"c", "uc", 3, some [2]⟩, ⟨"d", "ud", 2, some [3]⟩] 2 =
      ([⟨"a", "ua", 5, some [1]⟩, ⟨"b", "ub", 4, none⟩], [0, 0]) := by
  refine ⟨by decide, ?_⟩
  rw [mmr_skip_rule (7/10) (fun _ _ => 0) _ 2 (by decide)]
  decide

/-! ### Greedy selection lemmas for MMR -/

/-- With lambda = 1 the MMR value of a candidate is its normalized
relevance: the similarity term carries weight 1 - 1 = 0. -/
theorem mmrScore_one (sim : List ℚ → List ℚ → ℚ) (minS range : ℚ)
    (selected : List MDoc) (c : MDoc) :
    mmrScore 1 sim minS range selected c = (c.score - minS) / range := by
  simp [mmrScore]

theorem range_contains_iff (j t : ℕ) :
    (List.range j).contains t = true ↔ t < j := by
  simp [List.elem_iff, List.mem_range]

theorem bestFold_append (lam : ℚ) (sim : List ℚ → List ℚ → ℚ) (minS range : ℚ)
    (selected : List MDoc) (selIdx : List ℕ) (xs ys : List MDoc) :
    ∀ (idx : ℕ) (b : Option (ℚ × ℕ)),
      bestFold lam sim minS range selected selIdx idx (xs ++ ys) b =
        bestFold lam sim minS range selected selIdx (idx + xs.length) ys
          (bestFold lam sim minS range selected selIdx idx xs b) := by
  induction xs with
  | nil => intro idx b; simp [bestFold]
  | cons x xs ih =>
    intro idx b
    simp only [List.cons_append, bestFold, List.length_cons, List.append_eq]
    rw [ih (idx + 1)]
    rw [show idx + 1 + xs.length = idx + (xs.length + 1) from by omega]

theorem bestFold_skip (lam : ℚ) (sim : List ℚ → List ℚ → ℚ) (minS range : ℚ)
    (selected : List MDoc) (selIdx : List ℕ) :
    ∀ (cs : List MDoc) (idx : ℕ) (b : Option (ℚ × ℕ)),
      (∀ t, t < cs.length → selIdx.contains (idx + t) = true) →
      bestFold lam sim minS range selected selIdx idx cs b = b := by
  intro cs
  induction cs with
  | nil => intro idx b _; rfl
  | cons c cs ih =>
    intro idx b h
    have h0 : selIdx.contains idx = true := by simpa using h 0 (by simp)
    simp only [bestFold, h0, if_pos]
    refine ih (idx + 1) b (fun t ht => ?_)
    have hh := h (t + 1) (by simp only [List.length_cons]; omega)
    rw [show idx + 1 + t = idx + (t + 1) from by omega]
    exact hh

theorem bestFold_dominated (lam : ℚ) (sim : List ℚ → List ℚ → ℚ) (minS range : ℚ)
    (selected : List MDoc) (selIdx : List ℕ) :
    ∀ (cs : List MDoc) (idx : ℕ) (b : ℚ) (bi : ℕ),
      (∀ c ∈ cs, mmrScore lam sim minS range selected c ≤ b) →
      bestFold lam sim minS range selected selIdx idx cs (some (b, bi)) = some (b, bi) := by
  intro cs
  induction cs with
  | nil => intro idx b bi _; rfl
  | cons c cs ih =>
    intro idx b bi h
    have hc : mmrScore lam sim minS range selected c ≤ b := h c (by simp)
    have hrest : ∀ x ∈ cs, mmrScore lam sim minS range selected x ≤ b :=
      fun x hx => h x (List.mem_cons_of_mem _ hx)
    by_cases hsel : selIdx.contains idx = true
    · simp only [bestFold, hsel, if_pos]
      exact ih (idx + 1) b bi hrest
    · simp only [bestFold, Bool.not_eq_true] at hsel ⊢
      simp only [hsel, Bool.false_eq_true, if_neg, not_lt.mpr hc, if_false]
      simpa using ih (idx + 1) b bi hrest

/-- In a relevance-descending candidate list with the first j candidates
selected, one greedy MMR round with lambda = 1 picks candidate j: its
normalized relevance dominates everything later, and the strict
improvement test keeps the earliest maximizer. -/
theorem bestCandidate_next (sim : List ℚ → List ℚ → ℚ) (minS range : ℚ)
    (hr : 0 < range) (cands : List MDoc) (selected : List MDoc) (j : ℕ)
    (hj : j < cands.length)
    (hsorted : List.Pairwise (fun a b => b.score ≤ a.score) cands) :
    bestCandidate 1 sim minS range cands selected (List.range j) =
      some (((cands.getD j default).score - minS) / range, j) := by
  unfold bestCandidate
  have htk : (cands.take j).length = j := List.length_take_of_le (le_of_lt hj)
  have hstep : bestFold 1 sim minS range selected (List.range j) 0 cands none =
      bestFold 1 sim minS range selected (List.range j) (0 + (cands.take j).length)
        (cands.drop j) (bestFold 1 sim minS range selected (List.range j) 0 (cands.take j) none) := by
    conv_lhs => rw [← List.take_append_drop j cands]
    exact bestFold_append 1 sim minS range selected (List.range j) _ _ 0 none
  have hskip : bestFold 1 sim minS range selected (List.range j) 0 (cands.take j) none = none := by
    refine bestFold_skip 1 sim minS range selected (List.range j) (cands.take j) 0 none ?_
    intro t ht
    rw [htk] at ht
    rw [range_contains_iff]
    omega
  have hdrop : cands.drop j = cands.getD j default :: cands.drop (j + 1) := by
    rw [List.getD_eq_getElem _ _ hj]
    exact List.drop_eq_getElem_cons hj
  rw [hstep, hskip, htk, Nat.zero_add, hdrop]
  have hnotmem : (List.range j).contains j = false := by
    cases hx : (List.range j).contains j
    · rfl
    · exact absurd ((range_contains_iff j j).mp hx) (by omega)
  simp only [bestFold, hnotmem, Bool.false_eq_true, if_false, mmrScore_one]
  apply bestFold_dominated
  intro c hc
  rw [mmrScore_one]
  have hscore : c.score ≤ (cands.getD j default).score := by
    have hpair : List.Pairwise (fun a b => b.score ≤ a.score) (cands.drop j) :=
      hsorted.sublist (List.drop_sublist j cands)
    rw [hdrop] at hpair
    exact (List.pairwise_cons.mp hpair).1 c hc
  exact (div_le_div_iff_of_pos_right hr).mpr (by linarith)

theorem le_foldl_max (t : List ℚ) : ∀ h : ℚ, h ≤ t.foldl max h := by
  induction t with
  | nil => intro h; exact le_refl h
  | cons a t ih => intro h; exact le_trans (le_max_left h a) (ih (max h a))

theorem foldl_min_le (t : List ℚ) : ∀ h : ℚ, t.foldl min h ≤ h := by
  induction t with
  | nil => intro h; exact le_refl h
  | cons a t ih => intro h; exact le_trans (ih (min h a)) (min_le_left h a)

theorem pyListMin_le_pyListMax (l : List ℚ) (hl : l ≠ []) (d1 d2 : ℚ) :
    pyListMin l d2 ≤ pyListMax l d1 := by
  cases l with
  | nil => exact absurd rfl hl
  | cons h t => exact le_trans (foldl_min_le t h) (le_foldl_max t h)

/-- The min-max normalization denominator of MMRReranker.rerank is always
positive: the source substitutes 1.0 when all scores coincide. -/
theorem mmr_range_pos (l : List ℚ) (hl : l ≠ []) :
    0 < (if pyListMax l 1 ≠ pyListMin l 0 then pyListMax l 1 - pyListMin l 0 else 1) := by
  by_cases h : pyListMax l 1 ≠ pyListMin l 0
  · rw [if_pos h]
    exact sub_pos.mpr
      (lt_of_le_of_ne (pyListMin_le_pyListMax l hl 1 0) (fun he => h he.symm))
  · rw [if_neg h]
    exact one_pos

/-- The selection loop only ever appends: whatever was selected before the
loop stays at the front of the selection, in order. -/
theorem mmrLoop_prefix (lam : ℚ) (sim : List ℚ → List ℚ → ℚ) (minS range : ℚ)
    (cands : List MDoc) :
    ∀ (t : ℕ) (sel : List MDoc) (selIdx : List ℕ) (ms : List ℚ),
      ∃ ext, (mmrLoop lam sim minS range cands t (sel, selIdx, ms)).1 = sel ++ ext := by
  intro t
  induction t with
  | zero => intro sel selIdx ms; exact ⟨[], (List.append_nil sel).symm⟩
  | succ t ih =>
    intro sel selIdx ms
    cases hbc : bestCandidate lam sim minS range cands sel selIdx with
    | none =>
      refine ⟨[], ?_⟩
      simp only [mmrLoop, hbc]
      simp
    | some p =>
      obtain ⟨b, bi⟩ := p
      obtain ⟨ext, hext⟩ := ih (sel ++ [cands.getD bi default]) (selIdx ++ [bi]) (ms ++ [b])
      refine ⟨cands.getD bi default :: ext, ?_⟩
      simp only [mmrLoop, hbc]
      rw [hext]
      simp

/-- In a relevance-descending candidate list, the lambda = 1 selection loop
started on the first j candidates extends the selection to the first j + t
candidates: greedy relevance selection walks the sorted list in order. -/
theorem mmrLoop_sorted (sim : List ℚ → List ℚ → ℚ) (minS range : ℚ) (hr : 0 < range)
    (cands : List MDoc)
    (hsorted : List.Pairwise (fun a b => b.score ≤ a.score) cands) :
    ∀ (t j : ℕ) (ms : List ℚ), j + t ≤ cands.length →
      ∃ ms', mmrLoop 1 sim minS range cands t (cands.take j, List.range j, ms) =
        (cands.take (j + t), List.range (j + t), ms') := by
  intro t
  induction t with
  | zero => intro j ms _; exact ⟨ms, rfl⟩
  | succ t ih =>
    intro j ms hle
    have hj : j < cands.length := by omega
    simp only [mmrLoop, bestCandidate_next sim minS range hr cands (cands.take j) j hj hsorted]
    have hgd : cands.getD j default = cands[j] := by
      simp [List.getD, List.getElem?_eq_getElem hj]
    have h1 : cands.take j ++ [cands.getD j default] = cands.take (j + 1) := by
      rw [List.take_succ, List.getElem?_eq_getElem hj, hgd]
      rfl
    have h2 : List.range j ++ [j] = List.range (j + 1) := (List.range_succ j).symm
    rw [h1, h2]
    obtain ⟨ms', hms⟩ :=
      ih (j + 1) (ms ++ [((cands.getD j default).score - minS) / range]) (by omega)
    rw [show j + (t + 1) = j + 1 + t from by omega]
    exact ⟨ms', hms⟩

/-- C2 (amended): with more than three embedded candidates, the first
document MMRReranker.rerank selects is the FIRST embedded candidate in
input order (the source hardcodes first_idx = 0), for every lambda and
every similarity function. -/
theorem mmr_first_pick (lam : ℚ) (sim : List ℚ → List ℚ → ℚ)
    (ranked_results : List MDoc) (top_k : ℕ)
    (h : 3 < (mmrCandidates ranked_results).length) :
    (MMRrerank lam sim ranked_results top_k).1.head? =
      (mmrCandidates ranked_results).head? := by
  have hne : ranked_results ≠ [] := by
    intro he
    rw [he] at h
    simp [mmrCandidates] at h
  obtain ⟨c, cs, hc⟩ : ∃ c cs, mmrCandidates ranked_results = c :: cs := by
    cases hml : mmrCandidates ranked_results with
    | nil => rw [hml] at h; simp at h
    | cons c cs => exact ⟨c, cs, rfl⟩
  simp only [MMRrerank]
  rw [if_neg hne, if_neg (not_le.mpr h)]
  set cands := mmrCandidates ranked_results with hcands
  set minS := pyListMin (cands.map (fun r => r.score)) 0 with hminS
  set mxS := pyListMax (cands.map (fun r => r.score)) 1 with hmxS
  set rng := (if mxS ≠ minS then mxS - minS else 1) with hrng
  set first := cands.headD default with hfirst
  obtain ⟨ext, hext⟩ := mmrLoop_prefix lam sim minS rng cands
    (min top_k cands.length - 1) [first] [0] [(first.score - minS) / rng]
  split
  · rw [hext]
    simp [hfirst, hc]
  · rw [hext]
    simp [hfirst, hc]

/-- Descending stable sort of documents by relevance score: the reference
order the spec compares the lambda = 1 MMR selection against. -/
def relevanceDescSort (l : List MDoc) : List MDoc :=
  List.insertionSort (fun a b => b.score ≤ a.score) l

/-- C9 (amended): with lambda = 1 and the embedded candidates already in
descending-relevance order (as they are in the pipeline, which feeds MMR
an LLM-ranked list), the MMR selection equals the descending-relevance
order; on an unsorted candidate list the forced first pick of candidate 0
breaks the claimed equality (see the counterexample). -/
theorem mmr_lambda_one (sim : List ℚ → List ℚ → ℚ)
    (ranked_results : List MDoc) (top_k : ℕ)
    (h3 : 3 < (mmrCandidates ranked_results).length)
    (hsorted : List.Pairwise (fun a b => b.score ≤ a.score) (mmrCandidates ranked_results)) :
    (MMRrerank 1 sim ranked_results top_k).1.take
        (min top_k (mmrCandidates ranked_results).length) =
      (relevanceDescSort (mmrCandidates ranked_results)).take
        (min top_k (mmrCandidates ranked_results).length) := by
  have hne : ranked_results ≠ [] := by
    intro he
    rw [he] at h3
    simp [mmrCandidates] at h3
  obtain ⟨c, cs, hc⟩ : ∃ c cs, mmrCandidates ranked_results = c :: cs := by
    cases hml : mmrCandidates ranked_results with
    | nil => rw [hml] at h3; simp at h3
    | cons c cs => exact ⟨c, cs, rfl⟩
  have hsort_eq : relevanceDescSort (mmrCandidates ranked_results) =
      mmrCandidates ranked_results :=
    List.Sorted.insertionSort_eq hsorted
  rw [hsort_eq]
  simp only [MMRrerank]
  rw [if_neg hne, if_neg (not_le.mpr h3)]
  set cands := mmrCandidates ranked_results with hcands
  set minS := pyListMin (cands.map (fun r => r.score)) 0 with hminS
  set mxS := pyListMax (cands.map (fun r => r.score)) 1 with hmxS
  set rng := (if mxS ≠ minS then mxS - minS else 1) with hrng
  set first := cands.headD default with hfirst
  have hmapne : cands.map (fun r => r.score) ≠ [] := by
    rw [hc]
    simp
  have hrpos : 0 < rng := by
    rw [hrng, hmxS, hminS]
    exact mmr_range_pos (cands.map (fun r => r.score)) hmapne
  have hfirst1 : [first] = cands.take 1 := by
    rw [hfirst, hc]
    rfl
  have hidx1 : [(0 : ℕ)] = List.range 1 := rfl
  set M := min top_k cands.length with hM
  have hM_le : M ≤ cands.length := by
    rw [hM]
    exact min_le_right _ _
  have hlen4 : 3 < cands.length := h3
  obtain ⟨ms', hms⟩ := mmrLoop_sorted sim minS rng hrpos cands hsorted
    (M - 1) 1 [(first.score - minS) / rng] (by omega)
  rw [hfirst1, hidx1, hms]
  by_cases hM0 : M = 0
  · rw [hM0]
    simp
  · have hM1 : 1 + (M - 1) = M := by omega
    rw [hM1]
    have hsel_len : (cands.take M).length = M := List.length_take_of_le hM_le
    split
    · dsimp only
      rw [List.take_append_of_le_length (le_of_eq hsel_len.symm), List.take_take]
      simp
    · dsimp only
      rw [List.take_take]
      simp

/-- The candidate list used by the MMR counterexamples: four embedded
documents whose first element does NOT carry the maximal relevance
score. -/
def mmrCxDocs : List MDoc :=
  [⟨"a", "ua", 1, some [1]⟩, ⟨"b", "ub", 5, some [1]⟩,
   ⟨"c", "uc", 2, some [1]⟩, ⟨"d", "ud", 3, some [1]⟩]

/-- C2 counterexample: on an input whose first embedded candidate has
score 1 while another embedded candidate has score 5, the first selected
document has score 1, not the maximum: first_idx = 0 is hardcoded. -/
theorem mmr_first_pick_cx :
    3 < (mmrCandidates mmrCxDocs).length ∧
    ((MMRrerank (7/10) (fun _ _ => 0) mmrCxDocs 4).1.head?.map (fun d => d.score)) = some 1 ∧
    (∃ d ∈ mmrCandidates mmrCxDocs, (1 : ℚ) < d.score) ∧
    (detectIntentLambda (7/10) "").1 = 7/10 := by
  refine ⟨by decide, ?_, ⟨⟨"b", "ub", 5, some [1]⟩, by decide, by norm_num⟩, rfl⟩
  norm_num [MMRrerank, mmrCandidates, mmrCxDocs, mmrLoop, bestCandidate, bestFold,
    mmrScore, pyListMax, pyListMin]
  simp

/-- C2 witness for the amended claim, at lambda 1/2 and top_k 2. -/
theorem mmr_first_pick_witness :
    3 < (mmrCandidates mmrCxDocs).length ∧
    (MMRrerank (1/2) (fun _ _ => 0) mmrCxDocs 2).1.head? = (mmrCandidates mmrCxDocs).head? :=
  ⟨by decide, mmr_first_pick (1/2) (fun _ _ => 0) mmrCxDocs 2 (by decide)⟩

/-- C9 counterexample: with lambda = 1 (kept unadjusted for the empty
query) on an unsorted candidate list, the MMR selection order differs
from the descending-relevance order, because the first pick is candidate
0 regardless of its score. -/
theorem mmr_lambda_one_cx :
    (detectIntentLambda 1 "").1 = 1 ∧
    3 < (mmrCandidates mmrCxDocs).length ∧
    (MMRrerank 1 (fun _ _ => 0) mmrCxDocs 4).1 ≠ relevanceDescSort (mmrCandidates mmrCxDocs) := by
  refine ⟨rfl, by decide, ?_⟩
  norm_num [MMRrerank, mmrCandidates, mmrCxDocs, mmrLoop, bestCandidate, bestFold,
    mmrScore, pyListMax, pyListMin, relevanceDescSort, List.insertionSort, List.orderedInsert]
  simp

/-- The sorted counterpart of mmrCxDocs, used as the C9 witness input. -/
def mmrSortedDocs : List MDoc :=
  [⟨"b", "ub", 5, some [1]⟩, ⟨"d", "ud", 3, some [1]⟩,
   ⟨"c", "uc", 2, some [1]⟩, ⟨"a", "ua", 1, some [1]⟩]

/-- C9 witness for the amended claim, at top_k 3 on a sorted list. -/
theorem mmr_lambda_one_witness :
    3 < (mmrCandidates mmrSortedDocs).length ∧
    List.Pairwise (fun a b => b.score ≤ a.score) (mmrCandidates mmrSortedDocs) ∧
    (MMRrerank 1 (fun _ _ => 0) mmrSortedDocs 3).1.take
        (min 3 (mmrCandidates mmrSortedDocs).length) =
      (relevanceDescSort (mmrCandidates mmrSortedDocs)).take
        (min 3 (mmrCandidates mmrSortedDocs).length) :=
  ⟨by decide, by decide, mmr_lambda_one (fun _ _ => 0) mmrSortedDocs 3 (by decide) (by decide)⟩

/-! ## Feature engineering (training/feature_engineering.py)

Python strings are processed through their character lists so that every
operation is structurally recursive: pyWordsL models str.split() (split on
whitespace runs, dropping empty pieces), pyLowerL models str.lower (ASCII
case folding, as Lean's Char.toLower; the claims below do not depend on
non-ASCII case folding), pyInL models substring membership, and pyAnyDigit
models re.search of a digit (ASCII digits). -/

/-- Helper of pyWordsL: accumulate the current word (reversed) while
scanning. -/
def wordsAux : List Char → List Char → List (List Char)
  | [], cur => if cur = [] then [] else [cur.reverse]
  | c :: rest, cur =>
    if c.isWhitespace then
      if cur = [] then wordsAux rest [] else cur.reverse :: wordsAux rest []
    else wordsAux rest (c :: cur)

/-- Python str.split() on a character list. -/
def pyWordsL (s : List Char) : List (List Char) := wordsAux s []

/-- Python str.lower() on a character list. -/
def pyLowerL (s : List Char) : List Char := s.map Char.toLower

/-- Does the haystack start with the needle? -/
def startsWithL : List Char → List Char → Bool
  | [], _ => true
  | _ :: _, [] => false
  | a :: as, b :: bs => a = b && startsWithL as bs

/-- Python substring membership needle in haystack on character lists. -/
def pyInL (needle : List Char) : List Char → Bool
  | [] => needle.isEmpty
  | c :: rest => startsWithL needle (c :: rest) || pyInL needle rest

/-- Feature version of the analytics schema. -/
def FEATURE_VERSION : ℕ := 2

/-- Index of the llm_final_score feature (0-based). -/
def FEATURE_IDX_LLM_FINAL_SCORE : ℕ := 23

/-- Total number of Phase A features. -/
def TOTAL_FEATURES_PHASE_A : ℕ := 29

/-- Sentinel day count for documents without a usable publication date. -/
def MISSING_RECENCY_DAYS : ℚ := 999999

/-- The 6 query features of extract_query_features. -/
structure QueryFeats where
  query_length : ℚ
  word_count : ℚ
  has_quotes : ℚ
  has_numbers : ℚ
  has_question_words : ℚ
  keyword_count : ℚ
deriving DecidableEq

/-- The bilingual question-word list of extract_query_features. -/
def questionWords : List String :=
  ["什麼", "為什麼", "如何", "怎麼", "哪裡", "哪些", "誰", "何時",
   "what", "why", "how", "where", "which", "who", "when"]

/-- extract_query_features: 6 query-level features; the empty query takes
the all-zero early return. -/
def extract_query_features (query_text : String) : QueryFeats :=
  if query_text = "" then ⟨0, 0, 0, 0, 0, 0⟩
  else
    let words := pyWordsL query_text.data
    { query_length := (query_text.length : ℚ)
      word_count := (words.length : ℚ)
      has_quotes :=
        if query_text.data.contains '"' ∨ query_text.data.contains '\'' then 1 else 0
      has_numbers := if query_text.data.any Char.isDigit then 1 else 0
      has_question_words :=
        if questionWords.any (fun qw => pyInL qw.data (pyLowerL query_text.data)) then 1
        else 0
      keyword_count := ((words.filter (fun w => 2 ≤ w.length)).length : ℚ) }

/-- The 8 document features of extract_document_features. -/
structure DocFeats where
  doc_length : ℚ
  recency_days : ℚ
  has_author : ℚ
  has_publication_date : ℚ
  schema_completeness : ℚ
  title_length : ℚ
  description_length : ℚ
  url_length : ℚ
deriving DecidableEq

/-- extract_document_features.  parseISODay abstracts the standard-library
parse datetime.fromisoformat(published_date.replace(Z, +00:00)): it yields
the publication day number, or none when parsing raises; now is the
current day number of datetime.now, so now - pubDay is the .days of the
timedelta.  The schema-completeness denominator is the literal length of
the five-element field list and cannot be zero. -/
def extract_document_features (parseISODay : String → Option ℤ) (now : ℤ)
    (doc_title doc_description : String) (published_date author : Option String)
    (url : String) : DocFeats :=
  let recency_days : ℚ :=
    if pyTruthy published_date then
      match parseISODay (published_date.getD "") with
      | some pubDay => ((now - pubDay : ℤ) : ℚ)
      | none => MISSING_RECENCY_DAYS
    else MISSING_RECENCY_DAYS
  let populated : ℕ :=
    (if doc_title ≠ "" then 1 else 0) + (if doc_description ≠ "" then 1 else 0) +
    (if pyTruthy published_date then 1 else 0) + (if pyTruthy author then 1 else 0) +
    (if url ≠ "" then 1 else 0)
  { doc_length :=
      if doc_description ≠ "" then ((pyWordsL doc_description.data).length : ℚ) else 0
    recency_days := recency_days
    has_author := if pyTruthy author then 1 else 0
    has_publication_date := if pyTruthy published_date then 1 else 0
    schema_completeness := (populated : ℚ) / 5
    title_length := if doc_title ≠ "" then (doc_title.length : ℚ) else 0
    description_length :=
      if doc_description ≠ "" then (doc_description.length : ℚ) else 0
    url_length := if url ≠ "" then (url.length : ℚ) else 0 }

/-- The 7 query-document features of extract_query_doc_features. -/
structure QDFeats where
  vector_similarity_score : ℚ
  bm25_score : ℚ
  keyword_boost : ℚ
  temporal_boost : ℚ
  final_retrieval_score : ℚ
  keyword_overlap_ratio : ℚ
  title_exact_match : ℚ
deriving DecidableEq

/-- extract_query_doc_features: keyword sets are deduplicated token lists;
the overlap ratio divides by the query keyword count only when it is
positive (the source's zero guard). -/
def extract_query_doc_features (query_text doc_title doc_description : String)
    (bm25_score vector_score keyword_boost temporal_boost final_retrieval_score : ℚ) :
    Except PyExc QDFeats :=
  let query_keywords := (pyWordsL (pyLowerL query_text.data)).dedup
  let doc_keywords :=
    (pyWordsL (pyLowerL (doc_title ++ " " ++ doc_description).data)).dedup
  let overlap := query_keywords.filter (fun w => doc_keywords.contains w)
  match (if 0 < query_keywords.length then
      pydiv (overlap.length : ℚ) (query_keywords.length : ℚ)
    else .ok 0) with
  | .error e => .error e
  | .ok kor =>
    .ok { vector_similarity_score := vector_score
          bm25_score := bm25_score
          keyword_boost := keyword_boost
          temporal_boost := temporal_boost
          final_retrieval_score := final_retrieval_score
          keyword_overlap_ratio := kor
          title_exact_match :=
            if doc_title ≠ "" ∧ pyInL (pyLowerL query_text.data) (pyLowerL doc_title.data)
            then 1 else 0 }

/-- The 6 ranking features of extract_ranking_features. -/
structure RankFeats where
  retrieval_position : ℚ
  ranking_position : ℚ
  llm_final_score : ℚ
  relative_score_to_top : ℚ
  score_percentile : ℚ
  position_change : ℚ
deriving DecidableEq

/-- Python sorted() on floats: stable ascending sort. -/
def pySortedAsc (l : List ℚ) : List ℚ := List.insertionSort (fun a b => a ≤ b) l

/-- extract_ranking_features: the relative score divides by the maximal
score only when it is positive, and the percentile divides by
len(sorted) - 1 only when there are at least two scores. -/
def extract_ranking_features (retrieval_position ranking_position : ℤ)
    (llm_final_score : ℚ) (all_llm_scores : List ℚ) : Except PyExc RankFeats :=
  match (if all_llm_scores ≠ [] ∧ 0 < pyListMax all_llm_scores 0 then
      pydiv llm_final_score (pyListMax all_llm_scores 0)
    else .ok 1) with
  | .error e => .error e
  | .ok relative_score_to_top =>
    match (if all_llm_scores ≠ [] ∧ 1 < all_llm_scores.length then
        let sorted_scores := pySortedAsc all_llm_scores
        let rank : ℕ := if sorted_scores.contains llm_final_score then
            sorted_scores.indexOf llm_final_score
          else 0
        match pydiv (rank : ℚ) ((sorted_scores.length : ℚ) - 1) with
        | .error e => Except.error e
        | .ok p => Except.ok (p * 100)
      else Except.ok 50 : Except PyExc ℚ) with
    | .error e => .error e
    | .ok score_percentile =>
      .ok { retrieval_position := (retrieval_position : ℚ)
            ranking_position := (ranking_position : ℚ)
            llm_final_score := llm_final_score
            relative_score_to_top := relative_score_to_top
            score_percentile := score_percentile
            position_change := ((retrieval_position - ranking_position : ℤ) : ℚ) }

/-- The 2 MMR features of extract_mmr_features. -/
structure MMRFeats where
  mmr_diversity_score : ℚ
  detected_intent : ℚ
deriving DecidableEq

/-- extract_mmr_features: missing diversity score maps to 0.0 and the
intent encoding defaults to BALANCED = 2. -/
def extract_mmr_features (mmr_diversity_score : Option ℚ)
    (detected_intent : Option String) : MMRFeats :=
  { mmr_diversity_score := mmr_diversity_score.getD 0
    detected_intent :=
      match detected_intent with
      | some "SPECIFIC" => 0
      | some "EXPLORATORY" => 1
      | some "BALANCED" => 2
      | _ => 2 }

/-! ## XGBoost shadow ranker (core/xgboost_ranker.py)

A ranking result in the dict shape produced by ranking.py: extract_features
reads the document fields, the nested retrieval scores, and the nested
ranking score (each read with the source's defaults applied); in this shape
retrieval_position and ranking_position are both the enumeration index,
mmr_score is None and the intent defaults to BALANCED. -/

/-- One ranking result entering XGBoostRanker.rerank. -/
structure RDoc where
  name : String
  url : String
  schema_description : String
  datePublished : Option String
  author : Option String
  vector_score : ℚ
  bm25_score : ℚ
  keyword_boost : ℚ
  temporal_boost : ℚ
  final_retrieval_score : ℚ
  ranking_score : ℚ
  query_id : Option String
deriving DecidableEq, Inhabited

/-- A numpy feature matrix: the row data plus the second shape component. -/
structure Mat where
  data : List (List ℚ)
  cols : ℕ
deriving DecidableEq

/-- The per-row loop of extract_features: build each feature row, stopping
at the first raised exception. -/
def exceptMapRows (f : ℕ × RDoc → Except PyExc (List ℚ)) :
    List (ℕ × RDoc) → Except PyExc (List (List ℚ))
  | [] => .ok []
  | x :: xs =>
    match f x with
    | .error e => .error e
    | .ok r =>
      match exceptMapRows f xs with
      | .error e => .error e
      | .ok rs => .ok (r :: rs)

/-- One row of XGBoostRanker.extract_features: the 29 features in their
fixed order (query 6, document 8, retrieval 7, ranking 6, MMR 2). -/
def featureVector (parseISODay : String → Option ℤ) (now : ℤ) (query_text : String)
    (query_feats : QueryFeats) (all_llm_scores : List ℚ) (i : ℕ) (d : RDoc) :
    Except PyExc (List ℚ) :=
  let doc_feats := extract_document_features parseISODay now d.name d.schema_description
    d.datePublished d.author d.url
  match extract_query_doc_features query_text d.name d.schema_description
    d.bm25_score d.vector_score d.keyword_boost d.temporal_boost
    d.final_retrieval_score with
  | .error e => .error e
  | .ok query_doc_feats =>
    match extract_ranking_features (i : ℤ) (i : ℤ) d.ranking_score all_llm_scores with
    | .error e => .error e
    | .ok ranking_feats =>
      let mmr_feats := extract_mmr_features none (some "BALANCED")
      .ok [query_feats.query_length, query_feats.word_count, query_feats.has_quotes,
        query_feats.has_numbers, query_feats.has_question_words,
        query_feats.keyword_count,
        doc_feats.doc_length, doc_feats.recency_days, doc_feats.has_author,
        doc_feats.has_publication_date, doc_feats.schema_completeness,
        doc_feats.title_length, doc_feats.description_length, doc_feats.url_length,
        query_doc_feats.vector_similarity_score, query_doc_feats.bm25_score,
        query_doc_feats.keyword_boost, query_doc_feats.temporal_boost,
        query_doc_feats.final_retrieval_score,
        QDFeats.keyword_overlap_ratio query_doc_feats,
        query_doc_feats.title_exact_match,
        ranking_feats.retrieval_position, ranking_feats.ranking_position,
        ranking_feats.llm_final_score, ranking_feats.relative_score_to_top,
        ranking_feats.score_percentile, ranking_feats.position_change,
        mmr_feats.mmr_diversity_score, mmr_feats.detected_intent]

/-- XGBoostRanker configuration, with the source's config.get defaults
already applied by the caller. -/
structure XGBConfig where
  enabled : Bool
  model_path : String
  confidence_threshold : ℚ
  feature_version : ℕ
  use_shadow_mode : Bool
deriving DecidableEq

/-- The mutable attributes of one XGBoostRanker instance. -/
structure RankerState where
  enabled : Bool
  model_path : String
  confidence_threshold : ℚ
  feature_version : ℕ
  use_shadow_mode : Bool
  model : Option Unit
deriving DecidableEq

namespace XGBoostRanker

/-- XGBoostRanker.extract_features over the dict-shaped ranking results:
query features once, all LLM scores collected for percentile context, one
29-feature row per result; the produced numpy array has 29 columns. -/
def extract_features (parseISODay : String → Option ℤ) (now : ℤ)
    (ranking_results : List RDoc) (query_text : String) : Except PyExc Mat :=
  let query_feats := extract_query_features query_text
  let all_llm_scores := ranking_results.map (fun r => r.ranking_score)
  match exceptMapRows
      (fun p => featureVector parseISODay now query_text query_feats all_llm_scores p.1 p.2)
      ranking_results.enum with
  | .error e => .error e
  | .ok rows => .ok ⟨rows, TOTAL_FEATURES_PHASE_A⟩

/-- XGBoostRanker.load_model over an explicit file system and the
process-wide model cache.  The Phase A try-block only logs and stores the
still-unset self.model (None) in the cache, so no branch ever assigns a
non-None model. -/
def load_model (fs : String → Bool) (st : RankerState)
    (cache : List (String × Option Unit)) :
    RankerState × List (String × Option Unit) :=
  match dictFind cache st.model_path with
  | some m => ({ st with model := m }, cache)
  | none =>
    if fs st.model_path = false then
      if st.use_shadow_mode then (st, cache)
      else ({ st with enabled := false }, cache)
    else
      (st, dictSet cache st.model_path st.model)

/-- XGBoostRanker.__init__: build the state from the configuration and
load the model when enabled. -/
def init (config : XGBConfig) (fs : String → Bool)
    (cache : List (String × Option Unit)) :
    RankerState × List (String × Option Unit) :=
  let st : RankerState :=
    { enabled := config.enabled, model_path := config.model_path,
      confidence_threshold := config.confidence_threshold,
      feature_version := config.feature_version,
      use_shadow_mode := config.use_shadow_mode, model := none }
  if config.enabled then load_model fs st cache else (st, cache)

/-- XGBoostRanker.predict: assert the 29-feature width, then with no model
return the LLM-score-normalized dummy predictions with constant 0.5
confidence (numpy max over the empty score column raises ValueError); with
a model the Phase A placeholder returns zero scores and confidences. -/
def predict (st : RankerState) (features : Mat) : Except PyExc (List ℚ × List ℚ) :=
  if features.cols ≠ TOTAL_FEATURES_PHASE_A then .error .assertionError
  else
    match st.model with
    | none =>
      let llm_scores := features.data.map (fun row => row.getD FEATURE_IDX_LLM_FINAL_SCORE 0)
      match llm_scores with
      | [] => .error .valueError
      | h :: t =>
        let mx := t.foldl max h
        let normalized := if 0 < mx then llm_scores.map (fun s => s / mx)
          else List.replicate llm_scores.length 0
        .ok (normalized, List.replicate llm_scores.length (1/2))
    | some _ => .ok (List.replicate features.data.length 0,
        List.replicate features.data.length 0)

/-- The metadata dict rerank initializes before any branch. -/
structure XMeta where
  used_ml : Bool
  shadow_mode : Bool
  avg_xgboost_score : ℚ
  avg_confidence : ℚ
  num_results : ℕ
deriving DecidableEq

/-- The initial metadata of XGBoostRanker.rerank. -/
def baseMeta (st : RankerState) (ranking_results : List RDoc) : XMeta :=
  { used_ml := false, shadow_mode := st.use_shadow_mode,
    avg_xgboost_score := 0, avg_confidence := 0,
    num_results := ranking_results.length }

/-- The try-block of XGBoostRanker.rerank, given the extracted feature
matrix.  The shadow branch returns the input list unchanged; its analytics
logging and LLM-agreement comparison metrics are observability only (the
source returns ranking_results regardless of their values) and are not
modelled.  The production branch attaches the scores and stable-sorts
descending by them. -/
def rerankTry (st : RankerState) (ranking_results : List RDoc) (features : Mat) :
    Except PyExc (List RDoc × XMeta) :=
  match predict st features with
  | .error e => .error e
  | .ok (scores, confidences) =>
    let meta := { baseMeta st ranking_results with
      avg_xgboost_score := pymean scores, avg_confidence := pymean confidences }
    if st.use_shadow_mode then
      .ok (ranking_results, meta)
    else
      let paired := ranking_results.zip scores
      let reranked := List.insertionSort (fun a b : RDoc × ℚ => b.2 ≤ a.2) paired
      .ok (reranked.map Prod.fst, { meta with used_ml := true })

/-- XGBoostRanker.rerank given the outcome of feature extraction: the
disabled and model-absent-non-shadow early returns, then the try-block
with every exception caught at the component boundary and translated into
the unchanged input with the initial metadata. -/
def rerankWith (st : RankerState) (ranking_results : List RDoc)
    (features : Except PyExc Mat) : List RDoc × XMeta :=
  if st.enabled = false then (ranking_results, baseMeta st ranking_results)
  else if st.model = none ∧ st.use_shadow_mode = false then
    (ranking_results, baseMeta st ranking_results)
  else
    match features with
    | .error _ => (ranking_results, baseMeta st ranking_results)
    | .ok m =>
      match rerankTry st ranking_results m with
      | .ok r => r
      | .error _ => (ranking_results, baseMeta st ranking_results)

/-- XGBoostRanker.rerank. -/
def rerank (parseISODay : String → Option ℤ) (now : ℤ) (st : RankerState)
    (ranking_results : List RDoc) (query_text : String) : List RDoc × XMeta :=
  rerankWith st ranking_results
    (extract_features parseISODay now ranking_results query_text)

end XGBoostRanker

/-! ### Feature totality (C5) -/

theorem pydiv_ok (a b : ℚ) (hb : b ≠ 0) : pydiv a b = .ok (a / b) := by
  unfold pydiv
  rw [if_neg hb]

theorem extract_query_doc_features_ok (q t d : String) (b v kb tb frs : ℚ) :
    ∃ f, extract_query_doc_features q t d b v kb tb frs = .ok f := by
  simp only [extract_query_doc_features]
  by_cases hq : 0 < ((pyWordsL (pyLowerL q.data)).dedup).length
  · rw [if_pos hq]
    have hcast : (((pyWordsL (pyLowerL q.data)).dedup).length : ℚ) ≠ 0 := by
      have h0 : (0 : ℚ) < (((pyWordsL (pyLowerL q.data)).dedup).length : ℚ) := by
        exact_mod_cast hq
      exact ne_of_gt h0
    rw [pydiv_ok _ _ hcast]
    exact ⟨_, rfl⟩
  · rw [if_neg hq]
    exact ⟨_, rfl⟩

theorem relative_score_not_error (llm : ℚ) (allS : List ℚ) (e : PyExc) :
    (if allS ≠ [] ∧ 0 < pyListMax allS 0 then pydiv llm (pyListMax allS 0)
      else Except.ok 1) ≠ .error e := by
  by_cases h1 : allS ≠ [] ∧ 0 < pyListMax allS 0
  · rw [if_pos h1, pydiv_ok _ _ (ne_of_gt h1.2)]
    simp
  · rw [if_neg h1]
    simp

theorem score_percentile_not_error (llm : ℚ) (allS : List ℚ) (e : PyExc) :
    (if allS ≠ [] ∧ 1 < allS.length then
        let sorted_scores := pySortedAsc allS
        let rank : ℕ := if sorted_scores.contains llm then
            sorted_scores.indexOf llm
          else 0
        match pydiv (rank : ℚ) ((sorted_scores.length : ℚ) - 1) with
        | .error e => Except.error e
        | .ok p => Except.ok (p * 100)
      else Except.ok 50 : Except PyExc ℚ) ≠ .error e := by
  by_cases h2 : allS ≠ [] ∧ 1 < allS.length
  · rw [if_pos h2]
    have hlsort : (pySortedAsc allS).length = allS.length := by
      unfold pySortedAsc
      exact List.length_insertionSort _ _
    have hlen : ((pySortedAsc allS).length : ℚ) - 1 ≠ 0 := by
      rw [hlsort]
      have h2' : (1 : ℚ) < (allS.length : ℚ) := by exact_mod_cast h2.2
      linarith
    simp only [pydiv_ok _ _ hlen]
    simp
  · rw [if_neg h2]
    simp

theorem extract_ranking_features_ok (rp rkp : ℤ) (llm : ℚ) (allS : List ℚ) :
    ∃ f, extract_ranking_features rp rkp llm allS = .ok f := by
  unfold extract_ranking_features
  split
  · rename_i e heq
    exact absurd heq (relative_score_not_error llm allS e)
  · split
    · rename_i e heq
      exact absurd heq (score_percentile_not_error llm allS e)
    · exact ⟨_, rfl⟩

theorem featureVector_ok (parse : String → Option ℤ) (now : ℤ) (q : String)
    (qf : QueryFeats) (allS : List ℚ) (i : ℕ) (d : RDoc) :
    ∃ v, featureVector parse now q qf allS i d = .ok v ∧ v.length = 29 := by
  unfold featureVector
  obtain ⟨qd, hqd⟩ := extract_query_doc_features_ok q d.name d.schema_description
    d.bm25_score d.vector_score d.keyword_boost d.temporal_boost d.final_retrieval_score
  obtain ⟨rf, hrf⟩ := extract_ranking_features_ok (i : ℤ) (i : ℤ) d.ranking_score allS
  rw [hqd, hrf]
  exact ⟨_, rfl, rfl⟩

theorem exceptMapRows_ok (f : ℕ × RDoc → Except PyExc (List ℚ))
    (hf : ∀ x, ∃ v, f x = .ok v ∧ v.length = 29) :
    ∀ l : List (ℕ × RDoc), ∃ rows, exceptMapRows f l = .ok rows ∧
      rows.length = l.length ∧ ∀ r ∈ rows, r.length = 29 := by
  intro l
  induction l with
  | nil => exact ⟨[], rfl, rfl, by simp⟩
  | cons x xs ih =>
    obtain ⟨v, hv, hvl⟩ := hf x
    obtain ⟨rows, hrows, hlen, hall⟩ := ih
    refine ⟨v :: rows, ?_, by simp [hlen], ?_⟩
    · simp only [exceptMapRows, hv, hrows]
    · intro r hr
      rcases List.mem_cons.mp hr with h | h
      · rw [h]
        exact hvl
      · exact hall r h

/-- C5: for every input list (including documents with empty-string query,
missing dates, missing authors or empty fields) extract_features succeeds
(no division is ever performed on a zero denominator, so no value is NaN
or undefined) and produces a 29-column matrix with one 29-entry row per
document. -/
theorem feature_vector_shape (parseISODay : String → Option ℤ) (now : ℤ)
    (ranking_results : List RDoc) (query_text : String) :
    ∃ M, XGBoostRanker.extract_features parseISODay now ranking_results query_text =
        .ok M ∧
      M.cols = 29 ∧ M.data.length = ranking_results.length ∧
      ∀ row ∈ M.data, row.length = 29 := by
  unfold XGBoostRanker.extract_features
  dsimp only
  obtain ⟨rows, hrows, hlen, hall⟩ := exceptMapRows_ok _
    (fun x => featureVector_ok parseISODay now query_text
      (extract_query_features query_text)
      (ranking_results.map (fun r => r.ranking_score)) x.1 x.2)
    ranking_results.enum
  rw [hrows]
  refine ⟨_, rfl, rfl, ?_, hall⟩
  rw [hlen]
  exact List.enum_length

/-! ### Schema violation abort (C7) -/

/-- C7: a feature matrix whose width is not 29 makes predict fail its
assertion, and rerank (through rerankWith, which rerank is defined as)
catches the failure at the component boundary and returns the input list
unchanged with the initial metadata, whose used_ml is false. -/
theorem schema_violation_aborts (st : RankerState) (ranking_results : List RDoc)
    (m : Mat) (hw : m.cols ≠ 29) (hen : st.enabled = true)
    (hsm : st.model = none → st.use_shadow_mode = true) :
    XGBoostRanker.predict st m = .error .assertionError ∧
    XGBoostRanker.rerankWith st ranking_results (.ok m) =
      (ranking_results, XGBoostRanker.baseMeta st ranking_results) ∧
    (XGBoostRanker.rerankWith st ranking_results (.ok m)).2.used_ml = false := by
  have hp : XGBoostRanker.predict st m = .error .assertionError := by
    unfold XGBoostRanker.predict
    rw [if_pos (by simpa [TOTAL_FEATURES_PHASE_A] using hw)]
  have h2 : ¬(st.model = none ∧ st.use_shadow_mode = false) := by
    rintro ⟨hmo, hs⟩
    rw [hsm hmo] at hs
    cases hs
  have hr : XGBoostRanker.rerankWith st ranking_results (.ok m) =
      (ranking_results, XGBoostRanker.baseMeta st ranking_results) := by
    unfold XGBoostRanker.rerankWith
    rw [hen]
    rw [if_neg (by simp : ¬(true = false)), if_neg h2]
    show (match XGBoostRanker.rerankTry st ranking_results m with
      | .ok r => r
      | .error _ => (ranking_results, XGBoostRanker.baseMeta st ranking_results)) = _
    unfold XGBoostRanker.rerankTry
    rw [hp]
  exact ⟨hp, hr, by rw [hr]; rfl⟩

/-- C7 witness: a 0 x 5 matrix on an enabled shadow-mode ranker. -/
theorem schema_violation_aborts_witness :
    Mat.cols ⟨[], 5⟩ ≠ 29 ∧
    RankerState.enabled ⟨true, "m", 4/5, 2, true, none⟩ = true ∧
    XGBoostRanker.predict ⟨true, "m", 4/5, 2, true, none⟩ ⟨[], 5⟩ =
      .error .assertionError ∧
    XGBoostRanker.rerankWith ⟨true, "m", 4/5, 2, true, none⟩ [] (.ok ⟨[], 5⟩) =
      ([], XGBoostRanker.baseMeta ⟨true, "m", 4/5, 2, true, none⟩ []) := by
  have h := schema_violation_aborts ⟨true, "m", 4/5, 2, true, none⟩ [] ⟨[], 5⟩
    (by decide) rfl (fun _ => rfl)
  exact ⟨by decide, rfl, h.1, h.2.1⟩

/-! ### Shadow-mode non-mutation (C1) and unreachable production path (C10) -/

/-- Whenever the model is absent or shadow mode is on, rerankWith returns
the input list in its original order with used_ml still false: the
disabled and model-absent early returns pass through, the shadow branch
returns the input, and every raised exception is caught into the
pass-through as well.  The production sort needs a loaded model AND
shadow mode off. -/
theorem rerankWith_no_ml (st : RankerState) (ranking_results : List RDoc)
    (features : Except PyExc Mat)
    (h : st.model = none ∨ st.use_shadow_mode = true) :
    (XGBoostRanker.rerankWith st ranking_results features).1 = ranking_results ∧
    (XGBoostRanker.rerankWith st ranking_results features).2.used_ml = false := by
  unfold XGBoostRanker.rerankWith
  by_cases hen : st.enabled = false
  · rw [if_pos hen]
    exact ⟨rfl, rfl⟩
  · rw [if_neg hen]
    by_cases hcond : st.model = none ∧ st.use_shadow_mode = false
    · rw [if_pos hcond]
      exact ⟨rfl, rfl⟩
    · rw [if_neg hcond]
      have hsh : st.use_shadow_mode = true := by
        rcases h with hm | hs
        · by_cases hs' : st.use_shadow_mode = true
          · exact hs'
          · exact absurd ⟨hm, by simpa using hs'⟩ hcond
        · exact hs
      cases features with
      | error e => exact ⟨rfl, rfl⟩
      | ok m =>
        unfold XGBoostRanker.rerankTry
        dsimp only
        cases hp : XGBoostRanker.predict st m with
        | error e => exact ⟨rfl, rfl⟩
        | ok p =>
          obtain ⟨scores, confidences⟩ := p
          simp [hsh, XGBoostRanker.baseMeta]

/-- C1: in shadow mode (enabled and use_shadow_mode both true) rerank
returns the input documents unchanged - same URLs in the same order,
because it is the same list - with used_ml = false in the metadata,
whatever the predictions were. -/
theorem shadow_mode_non_mutation (parseISODay : String → Option ℤ) (now : ℤ)
    (st : RankerState) (ranking_results : List RDoc) (query_text : String)
    (_hen : st.enabled = true) (hsh : st.use_shadow_mode = true) :
    (XGBoostRanker.rerank parseISODay now st ranking_results query_text).1 =
      ranking_results ∧
    (XGBoostRanker.rerank parseISODay now st ranking_results query_text).2.used_ml =
      false := by
  unfold XGBoostRanker.rerank
  exact rerankWith_no_ml st ranking_results _ (Or.inr hsh)

/-- C1 witness: a shadow-mode ranker on a one-document list. -/
theorem shadow_mode_non_mutation_witness :
    RankerState.enabled ⟨true, "m", 4/5, 2, true, none⟩ = true ∧
    RankerState.use_shadow_mode ⟨true, "m", 4/5, 2, true, none⟩ = true ∧
    (XGBoostRanker.rerank (fun _ => none) 0 ⟨true, "m", 4/5, 2, true, none⟩
        [default] "q").1 = [default] ∧
    (XGBoostRanker.rerank (fun _ => none) 0 ⟨true, "m", 4/5, 2, true, none⟩
        [default] "q").2.used_ml = false := by
  have h := shadow_mode_non_mutation (fun _ => none) 0 ⟨true, "m", 4/5, 2, true, none⟩
    [default] "q" rfl rfl
  exact ⟨rfl, rfl, h.1, h.2⟩

/-- Invariant of the process-wide model cache: every stored value is the
Python None (load_model only ever stores the still-unset self.model). -/
def modelCacheInv (cache : List (String × Option Unit)) : Prop :=
  ∀ p ∈ cache, p.2 = (none : Option Unit)

theorem dictSet_none_inv (cache : List (String × Option Unit)) (k : String)
    (hinv : modelCacheInv cache) : modelCacheInv (dictSet cache k none) := by
  induction cache with
  | nil =>
    intro p hp
    simp only [dictSet, List.mem_singleton] at hp
    rw [hp]
  | cons q rest ih =>
    intro p hp
    obtain ⟨qk, qv⟩ := q
    by_cases hk : qk = k
    · simp only [dictSet, if_pos hk] at hp
      rcases List.mem_cons.mp hp with h | h
      · rw [h]
      · exact hinv p (List.mem_cons_of_mem _ h)
    · simp only [dictSet, if_neg hk] at hp
      rcases List.mem_cons.mp hp with h | h
      · rw [h]
        exact hinv (qk, qv) (List.mem_cons_self _ _)
      · exact ih (fun r hr => hinv r (List.mem_cons_of_mem _ hr)) p h

/-- load_model never produces a loaded model: a cache hit yields the cached
None, a missing file keeps or disables the ranker without a model, and the
file-exists branch only stores the still-None self.model in the cache. -/
theorem load_model_model_none (fs : String → Bool) (st : RankerState)
    (cache : List (String × Option Unit)) (hinv : modelCacheInv cache)
    (hm : st.model = none) :
    (XGBoostRanker.load_model fs st cache).1.model = none ∧
    modelCacheInv (XGBoostRanker.load_model fs st cache).2 := by
  unfold XGBoostRanker.load_model
  cases hf : dictFind cache st.model_path with
  | some m =>
    have hmn : m = none := hinv _ (dictFind_mem hf)
    subst hmn
    exact ⟨rfl, hinv⟩
  | none =>
    by_cases hfs : fs st.model_path = false
    · rw [if_pos hfs]
      by_cases hsh : st.use_shadow_mode = true
      · rw [if_pos hsh]
        exact ⟨hm, hinv⟩
      · rw [if_neg hsh]
        exact ⟨hm, hinv⟩
    · rw [if_neg hfs]
      refine ⟨hm, ?_⟩
      rw [hm]
      exact dictSet_none_inv cache st.model_path hinv

/-- C10: for every configuration, file system and cache satisfying the
cache invariant, the initialized ranker has no model, so rerank returns
the documents in input order with used_ml = false: the production re-sort
branch is unreachable. -/
theorem ml_path_unreachable (config : XGBConfig) (fs : String → Bool)
    (cache : List (String × Option Unit)) (parseISODay : String → Option ℤ)
    (now : ℤ) (ranking_results : List RDoc) (query_text : String)
    (hinv : modelCacheInv cache) :
    (XGBoostRanker.init config fs cache).1.model = none ∧
    (XGBoostRanker.rerank parseISODay now (XGBoostRanker.init config fs cache).1
        ranking_results query_text).1 = ranking_results ∧
    (XGBoostRanker.rerank parseISODay now (XGBoostRanker.init config fs cache).1
        ranking_results query_text).2.used_ml = false := by
  have hmodel : (XGBoostRanker.init config fs cache).1.model = none := by
    unfold XGBoostRanker.init
    by_cases he : config.enabled = true
    · rw [if_pos he]
      exact (load_model_model_none fs _ cache hinv rfl).1
    · rw [if_neg he]
  have h := rerankWith_no_ml (XGBoostRanker.init config fs cache).1 ranking_results
    (XGBoostRanker.extract_features parseISODay now ranking_results query_text)
    (Or.inl hmodel)
  exact ⟨hmodel, h.1, h.2⟩

/-- C10 witness: an enabled production-intent configuration whose model
file exists; even then no model is loaded and rerank passes through. -/
theorem ml_path_unreachable_witness :
    modelCacheInv [] ∧
    (XGBoostRanker.init ⟨true, "m", 4/5, 2, false⟩ (fun _ => true) []).1.model = none ∧
    (XGBoostRanker.rerank (fun _ => none) 0
        (XGBoostRanker.init ⟨true, "m", 4/5, 2, false⟩ (fun _ => true) []).1
        [default] "x").1 = [default] ∧
    (XGBoostRanker.rerank (fun _ => none) 0
        (XGBoostRanker.init ⟨true, "m", 4/5, 2, false⟩ (fun _ => true) []).1
        [default] "x").2.used_ml = false := by
  have h := ml_path_unreachable ⟨true, "m", 4/5, 2, false⟩ (fun _ => true) []
    (fun _ => none) 0 [default] "x" (by simp [modelCacheInv])
  exact ⟨by simp [modelCacheInv], h.1, h.2.1, h.2.2⟩

/-! ### Model-absence behavior (C4) and determinism of document features (C3) -/

theorem rerank_disabled (parseISODay : String → Option ℤ) (now : ℤ)
    (st : RankerState) (ranking_results : List RDoc) (query_text : String)
    (hd : st.enabled = false) :
    XGBoostRanker.rerank parseISODay now st ranking_results query_text =
      (ranking_results, XGBoostRanker.baseMeta st ranking_results) := by
  unfold XGBoostRanker.rerank XGBoostRanker.rerankWith
  rw [if_pos hd]

/-- C4 (amended): with the model file missing and not yet in the cache,
initialization never raises; with use_shadow_mode = true it demotes to
fallback-scored shadow behavior (enabled stays true, model stays None,
rerank returns the input with used_ml = false); with use_shadow_mode =
false XGBoost is DISABLED, and rerank passes the input through with the
untouched initial metadata - no fallback predictions are computed. -/
theorem model_absence_demotes (config : XGBConfig) (fs : String → Bool)
    (cache : List (String × Option Unit)) (parseISODay : String → Option ℤ)
    (now : ℤ) (ranking_results : List RDoc) (query_text : String)
    (hfs : fs config.model_path = false) (hen : config.enabled = true)
    (hc : dictFind cache config.model_path = none) :
    (config.use_shadow_mode = false →
      (XGBoostRanker.init config fs cache).1.enabled = false ∧
      XGBoostRanker.rerank parseISODay now (XGBoostRanker.init config fs cache).1
          ranking_results query_text =
        (ranking_results,
          XGBoostRanker.baseMeta (XGBoostRanker.init config fs cache).1
            ranking_results)) ∧
    (config.use_shadow_mode = true →
      (XGBoostRanker.init config fs cache).1.enabled = true ∧
      (XGBoostRanker.init config fs cache).1.model = none ∧
      (XGBoostRanker.rerank parseISODay now (XGBoostRanker.init config fs cache).1
          ranking_results query_text).1 = ranking_results ∧
      (XGBoostRanker.rerank parseISODay now (XGBoostRanker.init config fs cache).1
          ranking_results query_text).2.used_ml = false) := by
  have hload : XGBoostRanker.init config fs cache =
      (if config.use_shadow_mode then
        ({ enabled := config.enabled, model_path := config.model_path,
           confidence_threshold := config.confidence_threshold,
           feature_version := config.feature_version,
           use_shadow_mode := config.use_shadow_mode, model := none }, cache)
      else
        ({ enabled := false, model_path := config.model_path,
           confidence_threshold := config.confidence_threshold,
           feature_version := config.feature_version,
           use_shadow_mode := config.use_shadow_mode, model := none }, cache)) := by
    unfold XGBoostRanker.init XGBoostRanker.load_model
    rw [if_pos hen]
    dsimp only
    rw [hc, if_pos hfs]
  constructor
  · intro hsm
    rw [hload, if_neg (by simp [hsm])]
    exact ⟨rfl, rerank_disabled parseISODay now _ ranking_results query_text rfl⟩
  · intro hsm
    rw [hload, if_pos (by simp [hsm])]
    have h := rerankWith_no_ml
      ({ enabled := config.enabled, model_path := config.model_path,
         confidence_threshold := config.confidence_threshold,
         feature_version := config.feature_version,
         use_shadow_mode := config.use_shadow_mode, model := none } : RankerState)
      ranking_results
      (XGBoostRanker.extract_features parseISODay now ranking_results query_text)
      (Or.inl rfl)
    exact ⟨hen, rfl, h.1, h.2⟩

/-- The production-intent configuration of the C4 counterexample. -/
def cfgProdCx : XGBConfig :=
  ⟨true, "models/xgboost_ranker_v1_binary.json", 4/5, 2, false⟩

/-- The one-document input of the C4 counterexample: a single result with
LLM ranking score 4 and otherwise empty fields. -/
def rdocCx : RDoc := ⟨"t", "u", "", none, none, 0, 0, 0, 0, 0, 4, none⟩

/-- C4 witness for the amended claim: the missing-file production-intent
initialization is disabled and rerank passes through untouched. -/
theorem model_absence_demotes_witness :
    (fun _ => false : String → Bool) cfgProdCx.model_path = false ∧
    cfgProdCx.enabled = true ∧
    dictFind ([] : List (String × Option Unit)) cfgProdCx.model_path = none ∧
    cfgProdCx.use_shadow_mode = false ∧
    (XGBoostRanker.init cfgProdCx (fun _ => false) []).1.enabled = false ∧
    XGBoostRanker.rerank (fun _ => none) 0
        (XGBoostRanker.init cfgProdCx (fun _ => false) []).1 [rdocCx] "" =
      ([rdocCx],
        XGBoostRanker.baseMeta (XGBoostRanker.init cfgProdCx (fun _ => false) []).1
          [rdocCx]) := by
  have h := (model_absence_demotes cfgProdCx (fun _ => false) [] (fun _ => none) 0
    [rdocCx] "" rfl rfl rfl).1 rfl
  exact ⟨rfl, rfl, rfl, rfl, h.1, h.2⟩

/-- C4 counterexample: with enabled = true, use_shadow_mode = false and the
model file missing, the initialized ranker is DISABLED and rerank returns
the input with the all-zero initial metadata; the claimed demotion to
fallback-scored shadow behavior would instead have produced the fallback
average prediction 1 on this input, as the genuine shadow configuration
on the same input shows. -/
theorem model_absence_demotion_cx :
    (XGBoostRanker.init cfgProdCx (fun _ => false) []).1.enabled = false ∧
    XGBoostRanker.rerank (fun _ => none) 0
        (XGBoostRanker.init cfgProdCx (fun _ => false) []).1 [rdocCx] "" =
      ([rdocCx], ⟨false, false, 0, 0, 1⟩) ∧
    (XGBoostRanker.rerank (fun _ => none) 0 ⟨true, "m", 4/5, 2, true, none⟩
        [rdocCx] "").2.avg_xgboost_score = 1 ∧
    (0 : ℚ) ≠ 1 := by
  refine ⟨by decide, by decide, ?_, by norm_num⟩
  simp +decide [XGBoostRanker.rerank, XGBoostRanker.rerankWith, XGBoostRanker.rerankTry,
    XGBoostRanker.predict, XGBoostRanker.extract_features, exceptMapRows, featureVector,
    extract_query_features, extract_document_features, extract_query_doc_features,
    extract_ranking_features, extract_mmr_features, pyWordsL, wordsAux, pyLowerL,
    pyInL, startsWithL, pyTruthy, pydiv, pyListMax, pymean, pySortedAsc,
    XGBoostRanker.baseMeta, TOTAL_FEATURES_PHASE_A, FEATURE_IDX_LLM_FINAL_SCORE,
    MISSING_RECENCY_DAYS, rdocCx]

/-- C3 (amended): document-feature extraction is deterministic given the
clock: every feature except recency_days is independent of the current
time, and recency_days is the current day number minus the parsed
publication day (the sentinel when the date is absent or unparsable).
Two runs at different wall-clock times disagree on recency_days (see the
counterexample). -/
theorem feature_determinism (parseISODay : String → Option ℤ) (now1 now2 : ℤ)
    (doc_title doc_description : String) (published_date author : Option String)
    (url : String) :
    (extract_document_features parseISODay now1 doc_title doc_description
        published_date author url).doc_length =
      (extract_document_features parseISODay now2 doc_title doc_description
        published_date author url).doc_length ∧
    (extract_document_features parseISODay now1 doc_title doc_description
        published_date author url).has_author =
      (extract_document_features parseISODay now2 doc_title doc_description
        published_date author url).has_author ∧
    (extract_document_features parseISODay now1 doc_title doc_description
        published_date author url).has_publication_date =
      (extract_document_features parseISODay now2 doc_title doc_description
        published_date author url).has_publication_date ∧
    (extract_document_features parseISODay now1 doc_title doc_description
        published_date author url).schema_completeness =
      (extract_document_features parseISODay now2 doc_title doc_description
        published_date author url).schema_completeness ∧
    (extract_document_features parseISODay now1 doc_title doc_description
        published_date author url).title_length =
      (extract_document_features parseISODay now2 doc_title doc_description
        published_date author url).title_length ∧
    (extract_document_features parseISODay now1 doc_title doc_description
        published_date author url).description_length =
      (extract_document_features parseISODay now2 doc_title doc_description
        published_date author url).description_length ∧
    (extract_document_features parseISODay now1 doc_title doc_description
        published_date author url).url_length =
      (extract_document_features parseISODay now2 doc_title doc_description
        published_date author url).url_length ∧
    (extract_document_features parseISODay now1 doc_title doc_description
        published_date author url).recency_days =
      (if pyTruthy published_date then
        match parseISODay (published_date.getD "") with
        | some pubDay => ((now1 - pubDay : ℤ) : ℚ)
        | none => MISSING_RECENCY_DAYS
      else MISSING_RECENCY_DAYS) :=
  ⟨rfl, rfl, rfl, rfl, rfl, rfl, rfl, rfl⟩

/-- The fixed parse of the C3 counterexample: every date string parses to
day 100. -/
def parseCxDay : String → Option ℤ := fun _ => some 100

/-- C3 counterexample: identical inputs at clock days 101 and 102 give
recency_days 1 and 2 - the two runs do not produce identical features. -/
theorem feature_determinism_cx :
    (extract_document_features parseCxDay 101 "t" "" (some "2024-01-10")
        (some "a") "u").recency_days = 1 ∧
    (extract_document_features parseCxDay 102 "t" "" (some "2024-01-10")
        (some "a") "u").recency_days = 2 ∧
    extract_document_features parseCxDay 101 "t" "" (some "2024-01-10")
        (some "a") "u" ≠
      extract_document_features parseCxDay 102 "t" "" (some "2024-01-10")
        (some "a") "u" := by
  refine ⟨by decide, by decide, fun h => ?_⟩
  exact absurd (congrArg DocFeats.recency_days h) (by decide)
